import Mathlib

/-!
Verification of the AI Studio Clone chat relay, API-key resolver, provider
factory, model registry, API-key persistence and the browser auto-save
contract, as a shallow embedding of the TypeScript sources.

Strings handled by the crypto layer are modelled as `List Char` (`Str`),
so that the JavaScript `text.split(':')` delimiter handling can be reasoned
about directly.  Route-level message contents use Lean `String`.
-/

set_option maxHeartbeats 1000000

/-- JavaScript strings for the crypto layer: a list of characters. -/
abbrev Str := List Char

/-- JavaScript `text.split(sep)` for a one-character separator: splits at every
occurrence, keeping empty segments, and yields `[""]` on the empty string. -/
def jsSplit (sep : Char) : Str → List Str
  | [] => [[]]
  | c :: rest =>
    if c = sep then [] :: jsSplit sep rest
    else
      match jsSplit sep rest with
      | s :: ss => (c :: s) :: ss
      | [] => [[c]]

/-- `jsSplit` never returns an empty list of segments. -/
theorem jsSplit_ne_nil (sep : Char) (l : Str) : jsSplit sep l ≠ [] := by
  induction l with
  | nil => simp [jsSplit]
  | cons c rest ih =>
    simp only [jsSplit]
    by_cases h : c = sep
    · simp [h]
    · simp only [h, if_false]
      cases hrec : jsSplit sep rest with
      | nil => simp
      | cons s ss => simp

/-- Splitting a separator-free string yields that single segment. -/
theorem jsSplit_no_sep (sep : Char) (l : Str) (h : ∀ c ∈ l, c ≠ sep) :
    jsSplit sep l = [l] := by
  induction l with
  | nil => rfl
  | cons c rest ih =>
    have hc : c ≠ sep := h c (by simp)
    have hrest : jsSplit sep rest = [rest] := ih (fun x hx => h x (by simp [hx]))
    simp [jsSplit, hc, hrest]

/-- Splitting `a ++ ':' :: b` where `a` is separator-free peels off `a`. -/
theorem jsSplit_append (sep : Char) (a b : Str) (h : ∀ c ∈ a, c ≠ sep) :
    jsSplit sep (a ++ sep :: b) = a :: jsSplit sep b := by
  induction a with
  | nil => simp [jsSplit]
  | cons c rest ih =>
    have hc : c ≠ sep := h c (by simp)
    have hrest := ih (fun x hx => h x (by simp [hx]))
    simp only [List.cons_append, jsSplit, hc, if_false, List.append_eq, hrest]

/-- The hexadecimal alphabet produced by node's `'hex'` encodings. -/
def isHexChar (c : Char) : Bool :=
  ('0' ≤ c && c ≤ '9') || ('a' ≤ c && c ≤ 'f') || ('A' ≤ c && c ≤ 'F')

theorem isHexChar_ne_colon (c : Char) (h : isHexChar c = true) : c ≠ ':' := by
  intro hc; subst hc; simp [isHexChar] at h

/-- Modelled from the spec: the AES-256-CBC primitive (node `crypto`
`createCipheriv`/`createDecipheriv` with the scrypt-derived key) is external
code, so it is modelled as an arbitrary symmetric scheme: `encHex iv text`
is the hex ciphertext written by `cipher.update/final('hex')` for a given
hex IV, `decHex` is the inverse (`none` models a thrown decryption error),
`dec_enc` is the symmetric round trip for a fixed server-wide secret, and
`enc_hex` records that the ciphertext is hex-encoded (so it never contains
the `':'` delimiter). -/
structure Cipher where
  encHex : Str → Str → Str
  decHex : Str → Str → Option Str
  dec_enc : ∀ ivHex text, decHex ivHex (encHex ivHex text) = some text
  enc_hex : ∀ ivHex text, (encHex ivHex text).all isHexChar = true

/-- `encrypt` from `app/api/conversations/route.ts` (the api-keys endpoint):
a fresh random IV is hex-encoded and joined to the hex ciphertext with `':'`.
The random 16-byte IV enters as its 32-character hex form `ivHex`. -/
def encryptStored (c : Cipher) (ivHex : Str) (text : Str) : Str :=
  ivHex ++ ':' :: c.encHex ivHex text

/-- `decrypt` from `app/api/conversations/route.ts`: split the stored value on
`':'`, take `parts[0]` as the IV and `parts[1]` as the ciphertext, and
decipher.  A malformed IV (not 16 bytes of hex) makes `createDecipheriv`
throw, and a missing `parts[1]` or undecipherable ciphertext also throws;
both are modelled as `none`. -/
def decryptStored (c : Cipher) (stored : Str) : Option Str :=
  match jsSplit ':' stored with
  | ivHex :: encrypted :: _ =>
    if ivHex.length = 32 ∧ ivHex.all isHexChar = true then c.decHex ivHex encrypted
    else none
  | _ => none

/-- `decrypt` from `lib/api-key-manager.ts`: same algorithm, but wrapped in
`try/catch` that rethrows a uniform `Error('Failed to decrypt API key')`. -/
def decryptAKM (c : Cipher) (stored : Str) : Except String Str :=
  match decryptStored c stored with
  | some v => .ok v
  | none => .error "Failed to decrypt API key"

/-- Round trip of the stored `iv:ciphertext` format: because the hex
ciphertext never contains `':'`, the split recovers the IV and ciphertext
exactly, for any plaintext (including ones containing `':'`). -/
theorem decryptStored_encryptStored (c : Cipher) (ivHex text : Str)
    (hlen : ivHex.length = 32) (hhex : ivHex.all isHexChar = true) :
    decryptStored c (encryptStored c ivHex text) = some text := by
  have hivfree : ∀ ch ∈ ivHex, ch ≠ ':' := by
    intro ch hch
    exact isHexChar_ne_colon ch (by
      have := List.all_eq_true.mp hhex ch hch
      simpa using this)
  have hctfree : ∀ ch ∈ c.encHex ivHex text, ch ≠ ':' := by
    intro ch hch
    exact isHexChar_ne_colon ch (by
      have := List.all_eq_true.mp (c.enc_hex ivHex text) ch hch
      simpa using this)
  unfold encryptStored decryptStored
  rw [jsSplit_append ':' ivHex (c.encHex ivHex text) hivfree,
      jsSplit_no_sep ':' (c.encHex ivHex text) hctfree]
  simp [hlen, hhex, c.dec_enc]

/-- Value of a decimal digit character. -/
def digitVal (c : Char) : Nat := c.toNat - 48

/-- Fixed-width (7 decimal digits, least significant first) encoding of a
code point, used by the concrete witness cipher below. -/
def encChar7 (n : Nat) : List Char :=
  [Nat.digitChar (n % 10), Nat.digitChar (n / 10 % 10), Nat.digitChar (n / 100 % 10),
   Nat.digitChar (n / 1000 % 10), Nat.digitChar (n / 10000 % 10),
   Nat.digitChar (n / 100000 % 10), Nat.digitChar (n / 1000000 % 10)]

/-- Decode seven little-endian decimal digit characters. -/
def decChar7 (c0 c1 c2 c3 c4 c5 c6 : Char) : Nat :=
  digitVal c0 + 10 * digitVal c1 + 100 * digitVal c2 + 1000 * digitVal c3 +
    10000 * digitVal c4 + 100000 * digitVal c5 + 1000000 * digitVal c6

/-- Digit-wise encoding of a whole string, 7 digit characters per char. -/
def encodeStr (s : Str) : Str := s.foldr (fun ch acc => encChar7 ch.toNat ++ acc) []

/-- Decode a digit-encoded string, 7 characters at a time. -/
def decode7 : Str → Option Str
  | [] => some []
  | c0 :: c1 :: c2 :: c3 :: c4 :: c5 :: c6 :: rest =>
    (decode7 rest).map (fun t => Char.ofNat (decChar7 c0 c1 c2 c3 c4 c5 c6) :: t)
  | _ => none

theorem digitVal_digitChar (m : Nat) (h : m < 10) : digitVal (Nat.digitChar m) = m := by
  interval_cases m <;> decide

theorem decChar7_encChar7 (n : Nat) (h : n < 10000000) :
    decChar7 (Nat.digitChar (n % 10)) (Nat.digitChar (n / 10 % 10))
      (Nat.digitChar (n / 100 % 10)) (Nat.digitChar (n / 1000 % 10))
      (Nat.digitChar (n / 10000 % 10)) (Nat.digitChar (n / 100000 % 10))
      (Nat.digitChar (n / 1000000 % 10)) = n := by
  unfold decChar7
  rw [digitVal_digitChar _ (Nat.mod_lt _ (by norm_num)),
      digitVal_digitChar _ (Nat.mod_lt _ (by norm_num)),
      digitVal_digitChar _ (Nat.mod_lt _ (by norm_num)),
      digitVal_digitChar _ (Nat.mod_lt _ (by norm_num)),
      digitVal_digitChar _ (Nat.mod_lt _ (by norm_num)),
      digitVal_digitChar _ (Nat.mod_lt _ (by norm_num)),
      digitVal_digitChar _ (Nat.mod_lt _ (by norm_num))]
  omega

theorem char_toNat_lt (c : Char) : c.toNat < 10000000 := by
  have h := c.valid
  simp only [UInt32.isValidChar, Nat.isValidChar] at h
  simp only [Char.toNat]
  omega

theorem decode7_encodeStr (s : Str) : decode7 (encodeStr s) = some s := by
  induction s with
  | nil => rfl
  | cons ch s ih =>
    show decode7 (encChar7 ch.toNat ++ encodeStr s) = some (ch :: s)
    simp only [encChar7, List.cons_append, List.nil_append, List.append_eq, decode7, ih,
      Option.map_some]
    rw [decChar7_encChar7 ch.toNat (char_toNat_lt ch), Char.ofNat_toNat]
    rfl

theorem isHexChar_digitChar (m : Nat) (h : m < 10) : isHexChar (Nat.digitChar m) = true := by
  interval_cases m <;> decide

theorem encodeStr_hex (s : Str) : (encodeStr s).all isHexChar = true := by
  induction s with
  | nil => rfl
  | cons ch s ih =>
    show ((encChar7 ch.toNat ++ encodeStr s).all isHexChar) = true
    rw [List.all_append, ih]
    simp only [encChar7, List.all_cons, List.all_nil, Bool.and_true, Bool.and_eq_true]
    refine ⟨?_, ?_, ?_, ?_, ?_, ?_, ?_⟩ <;>
      exact isHexChar_digitChar _ (Nat.mod_lt _ (by norm_num))

/-- A concrete `Cipher` used to evaluate the abstract theorems on explicit
inputs: each character becomes seven decimal digit characters (decimal
digits are hex characters). It ignores the IV, which no law requires. -/
def digitCipher : Cipher where
  encHex := fun _ text => encodeStr text
  decHex := fun _ ct => decode7 ct
  dec_enc := fun _ text => decode7_encodeStr text
  enc_hex := fun _ text => encodeStr_hex text

/-- `AIProvider` from `lib/ai-models.ts`. -/
inductive AIProvider
  | openai
  | anthropic
  | google
  | openrouter
  | xai
deriving DecidableEq, Repr

/-- A `UserApiKey` row: one user-supplied encrypted credential. -/
structure KeyRow where
  id : Nat
  userId : String
  provider : AIProvider
  encryptedKey : Str
deriving DecidableEq, Repr

/-- The provider-credential slice of `process.env`. -/
structure Env where
  openaiKey : Option Str
  anthropicKey : Option Str
  googleKey : Option Str
  xaiKey : Option Str
  openrouterKey : Option Str
deriving DecidableEq, Repr

/-- JavaScript `x || null` on a possibly-undefined string: an empty string is
falsy, so it also collapses to `null`. -/
def jsOrNull : Option Str → Option Str
  | some s => if s = [] then none else some s
  | none => none

/-- The `switch (provider)` fallback of `getAPIKey`: the provider-specific
environment variable, with `|| null`. -/
def envKeyFor (env : Env) : AIProvider → Option Str
  | .openai => jsOrNull env.openaiKey
  | .anthropic => jsOrNull env.anthropicKey
  | .google => jsOrNull env.googleKey
  | .xai => jsOrNull env.xaiKey
  | .openrouter => jsOrNull env.openrouterKey

/-- The `where: { userId, provider }` condition on `UserApiKey` rows. -/
def keyMatches (userId : String) (provider : AIProvider) (r : KeyRow) : Bool :=
  r.userId = userId ∧ r.provider = provider

/-- `db.userApiKey.findFirst({ where: { userId, provider } })`. -/
def findFirstUserKey (rows : List KeyRow) (userId : String) (provider : AIProvider) :
    Option KeyRow :=
  rows.find? (keyMatches userId provider)

/-- `getAPIKey` from `lib/api-key-manager.ts`.  With a user id it looks up a
user-specific row and decrypts it; the `try/catch` around the lookup and the
decryption logs and falls through to the environment-variable `switch` on any
error ("Continue to check environment variables"), so a decryption failure is
swallowed rather than propagated. -/
def getAPIKey (c : Cipher) (env : Env) (rows : List KeyRow)
    (provider : AIProvider) (userId : Option String) : Option Str :=
  match userId with
  | some uid =>
    match findFirstUserKey rows uid provider with
    | some userKey =>
      match decryptAKM c userKey.encryptedKey with
      | .ok v => some v
      | .error _ => envKeyFor env provider
    | none => envKeyFor env provider
  | none => envKeyFor env provider

/-- `AIModel` from `lib/ai-models.ts` (the registry fields the relay reads;
`description`, `capabilities`, `bestFor` and `pricing` are presentation-only
and omitted). -/
structure AIModel where
  id : String
  name : String
  provider : AIProvider
  modelId : String
  contextWindow : Nat
  maxOutput : Nat
deriving DecidableEq, Repr

def gemini25pro : AIModel :=
  ⟨"gemini-2.5-pro", "Gemini 2.5 Pro", .google, "gemini-2.5-pro-exp-03", 2000000, 16384⟩

def claudeSonnet45 : AIModel :=
  ⟨"claude-sonnet-4.5", "Claude Sonnet 4.5", .anthropic, "claude-sonnet-4.5-20250514", 200000, 16384⟩

def claudeSonnet45Thinking : AIModel :=
  ⟨"claude-sonnet-4.5-thinking", "Claude Sonnet 4.5 Thinking", .anthropic,
    "claude-sonnet-4.5-thinking-32k-20250514", 32000, 16384⟩

def gpt5 : AIModel := ⟨"gpt-5", "GPT-5", .openai, "gpt-5", 200000, 32768⟩

def chatgpt5High : AIModel :=
  ⟨"chatgpt-5-high", "ChatGPT 5 High", .openai, "chatgpt-5-high", 200000, 32768⟩

def chatgpt5Chat : AIModel :=
  ⟨"chatgpt-5-chat", "ChatGPT 5 Chat", .openai, "chatgpt-5-chat", 128000, 16384⟩

def grok2 : AIModel := ⟨"grok-2-1212", "Grok 2", .xai, "x-ai/grok-2-1212", 131072, 16384⟩

def grok2Vision : AIModel :=
  ⟨"grok-2-vision-1212", "Grok 2 Vision", .xai, "x-ai/grok-2-vision-1212", 32768, 16384⟩

def gpt4o : AIModel := ⟨"gpt-4o", "GPT-4o", .openai, "gpt-4o", 128000, 16384⟩

def o1Model : AIModel := ⟨"o1", "O1", .openai, "o1", 200000, 100000⟩

def o1Mini : AIModel := ⟨"o1-mini", "O1 Mini", .openai, "o1-mini", 128000, 65536⟩

def claude35Sonnet : AIModel :=
  ⟨"claude-3.5-sonnet", "Claude 3.5 Sonnet", .anthropic, "claude-3-5-sonnet-20241022", 200000, 8192⟩

def claude3Opus : AIModel :=
  ⟨"claude-3-opus", "Claude 3 Opus", .anthropic, "claude-3-opus-20240229", 200000, 4096⟩

def gemini20Flash : AIModel :=
  ⟨"gemini-2.0-flash", "Gemini 2.0 Flash", .google, "gemini-2.0-flash-exp", 1000000, 8192⟩

def gemini15Pro : AIModel :=
  ⟨"gemini-1.5-pro", "Gemini 1.5 Pro", .google, "gemini-1.5-pro-002", 2000000, 8192⟩

def gpt4oMini : AIModel := ⟨"gpt-4o-mini", "GPT-4o Mini", .openai, "gpt-4o-mini", 128000, 16384⟩

def claude3Haiku : AIModel :=
  ⟨"claude-3-haiku", "Claude 3 Haiku", .anthropic, "claude-3-haiku-20240307", 200000, 4096⟩

def gemini15Flash : AIModel :=
  ⟨"gemini-1.5-flash", "Gemini 1.5 Flash", .google, "gemini-1.5-flash-002", 1000000, 8192⟩

def deepseekV3 : AIModel :=
  ⟨"deepseek-v3", "DeepSeek V3", .openrouter, "deepseek/deepseek-chat", 64000, 8192⟩

def llama33_70b : AIModel :=
  ⟨"llama-3.3-70b", "Llama 3.3 70B", .openrouter, "meta-llama/llama-3.3-70b-instruct", 128000, 8192⟩

def qwen25Coder : AIModel :=
  ⟨"qwen-2.5-coder", "Qwen 2.5 Coder 32B", .openrouter, "qwen/qwen-2.5-coder-32b-instruct", 32768, 8192⟩

/-- `FLAGSHIP_MODELS` from `lib/ai-models.ts`. -/
def FLAGSHIP_MODELS : List AIModel :=
  [gemini25pro, claudeSonnet45, claudeSonnet45Thinking, gpt5, chatgpt5High, chatgpt5Chat,
   grok2, grok2Vision, gpt4o, o1Model, o1Mini, claude35Sonnet, claude3Opus, gemini20Flash,
   gemini15Pro]

/-- `FAST_MODELS` from `lib/ai-models.ts`. -/
def FAST_MODELS : List AIModel := [gpt4oMini, claude3Haiku, gemini15Flash]

/-- `SPECIALIZED_MODELS` from `lib/ai-models.ts`. -/
def SPECIALIZED_MODELS : List AIModel := [deepseekV3, llama33_70b, qwen25Coder]

/-- `ALL_MODELS` from `lib/ai-models.ts`. -/
def ALL_MODELS : List AIModel := FLAGSHIP_MODELS ++ FAST_MODELS ++ SPECIALIZED_MODELS

/-- `getModelById` from `lib/ai-models.ts`: linear scan of the registry. -/
def getModelById (id : String) : Option AIModel :=
  ALL_MODELS.find? (fun model => model.id = id)

/-- One entry of `PROVIDER_INFO` from `lib/ai-models.ts`. -/
structure ProviderInfo where
  name : String
  description : String
  requiresKey : String
  website : String
deriving DecidableEq, Repr

/-- `PROVIDER_INFO` from `lib/ai-models.ts`. -/
def PROVIDER_INFO : AIProvider → ProviderInfo
  | .openai =>
    ⟨"OpenAI", "Industry leader in AI models. Latest GPT-5 series.", "OPENAI_API_KEY",
      "https://platform.openai.com"⟩
  | .anthropic =>
    ⟨"Anthropic", "#1 on Vercel AI Gateway. Latest Claude Sonnet 4.5.", "ANTHROPIC_API_KEY",
      "https://console.anthropic.com"⟩
  | .google =>
    ⟨"Google AI", "#1 on LMArena. Latest Gemini 2.5 Pro with 2M context.",
      "GOOGLE_GENERATIVE_AI_API_KEY", "https://aistudio.google.com"⟩
  | .xai =>
    ⟨"X.AI", "#1 on OpenRouter with 30.2% market share. Latest Grok models.", "XAI_API_KEY",
      "https://x.ai"⟩
  | .openrouter =>
    ⟨"OpenRouter", "Unified gateway to 100+ models. Single API key for all providers.",
      "OPENROUTER_API_KEY", "https://openrouter.ai"⟩

/-- The language-model handle returned by `getLanguageModel` in
`lib/ai-providers.ts`: which vendor client was constructed, with the
credential it was bound to and the vendor-specific model string. -/
inductive LMHandle
  | openaiDefault (modelStr : String)
  | openaiCustom (apiKey : Str) (modelStr : String)
  | anthropicShared (modelStr : String)
  | googleShared (modelStr : String)
  | xaiCustom (apiKey : Str) (modelStr : String)
  | openrouterCustom (apiKey : Str) (modelStr : String)
deriving DecidableEq, Repr

/-- Outcome of `getLanguageModel`: a handle, or one of the thrown errors
(`Model not found`, `APIKeyMissingError` with its three structured fields, or
the explicit user-key-unsupported errors for Anthropic/Google). -/
inductive LMResult
  | ok (handle : LMHandle)
  | modelNotFound (message : String)
  | apiKeyMissing (provider : String) (requiredKey : String) (website : String)
  | userKeyUnsupported (message : String)
deriving DecidableEq, Repr

/-- `getLanguageModel` from `lib/ai-providers.ts`: registry lookup, key
resolution via `getAPIKey`, then the per-provider `switch` constructing a
client.  `APIKeyMissingError` is raised with `PROVIDER_INFO[provider]`'s
display name, required-setting name and website. -/
def getLanguageModel (c : Cipher) (env : Env) (rows : List KeyRow)
    (modelId : String) (userId : Option String) : LMResult :=
  match getModelById modelId with
  | none => .modelNotFound ("Model not found: " ++ modelId)
  | some modelConfig =>
    let provider := modelConfig.provider
    let actualModelId := modelConfig.modelId
    match getAPIKey c env rows provider userId with
    | none =>
      let providerInfo := PROVIDER_INFO provider
      .apiKeyMissing providerInfo.name providerInfo.requiresKey providerInfo.website
    | some apiKey =>
      match provider with
      | .openai =>
        match userId with
        | some _ => .ok (.openaiCustom apiKey actualModelId)
        | none => .ok (.openaiDefault actualModelId)
      | .anthropic =>
        if userId.isSome ∧ some apiKey ≠ env.anthropicKey then
          .userKeyUnsupported
            "User-specific Anthropic keys not yet supported. Please use environment variables."
        else .ok (.anthropicShared actualModelId)
      | .google =>
        if userId.isSome ∧ some apiKey ≠ env.googleKey then
          .userKeyUnsupported
            "User-specific Google AI keys not yet supported. Please use environment variables."
        else .ok (.googleShared actualModelId)
      | .xai => .ok (.xaiCustom apiKey actualModelId)
      | .openrouter => .ok (.openrouterCustom apiKey actualModelId)

/-- Message roles of the `ChatMessage` interface in `lib/ai-providers.ts`. -/
inductive MsgRole
  | system
  | user
  | assistant
  | tool
deriving DecidableEq, Repr

/-- The `ChatMessage` interface from `lib/ai-providers.ts`. -/
structure ProviderMsg where
  role : MsgRole
  content : String
  name : Option String := none
  toolCallId : Option String := none
deriving DecidableEq, Repr

/-- The Vercel AI SDK `CoreMessage` shape produced by `convertMessages`. -/
inductive CoreMessage
  | plain (role : MsgRole) (content : String)
  | toolResult (toolCallId : String) (toolName : String) (result : String)
deriving DecidableEq, Repr

/-- `convertMessages` from `lib/ai-providers.ts`. -/
def convertMessages (messages : List ProviderMsg) : List CoreMessage :=
  messages.map (fun msg =>
    match msg.role with
    | .tool => .toolResult (msg.toolCallId.getD "") (msg.name.getD "") msg.content
    | r => .plain r msg.content)

/-- `convertTools` from `lib/ai-providers.ts` (tool bodies are irrelevant to
the claims, so a tool is represented by its name): `undefined` when no tools
are given. -/
def convertTools (tools : List String) : Option (List String) :=
  if tools.length = 0 then none else some tools

/-- The `ChatRequest` interface from `lib/ai-providers.ts` (plus the `userId`
the chat route passes).  Callback fields (`onChunk`, `onToolCall`) and
`structuredOutput` play no part in the claims, and numeric fields are
rationals. -/
structure ChatRequest where
  model : String
  messages : List ProviderMsg
  temperature : Option ℚ := none
  maxTokens : Option ℚ := none
  topP : Option ℚ := none
  tools : List String := []
  userId : Option String := none
deriving DecidableEq, Repr

/-- The argument record `streamChat` passes to the SDK's `streamText`:
`model`, `messages`, `temperature ?? 1.0`, `topP`, and `tools` when present —
and no max-tokens field at all. -/
structure StreamTextCall where
  model : LMHandle
  messages : List CoreMessage
  temperature : ℚ
  topP : Option ℚ
  tools : Option (List String)
deriving DecidableEq, Repr

/-- `streamChat` from `lib/ai-providers.ts`, up to the `streamText`
invocation: resolve the model handle (which can throw) and build the
`streamText` argument record. -/
def streamChatCall (c : Cipher) (env : Env) (rows : List KeyRow)
    (request : ChatRequest) : Except LMResult StreamTextCall :=
  match getLanguageModel c env rows request.model request.userId with
  | .ok model =>
    .ok { model := model
          messages := convertMessages request.messages
          temperature := request.temperature.getD 1
          topP := request.topP
          tools := convertTools request.tools }
  | e => .error e

/-- The text chunks `streamChat`'s returned stream emits, given the provider
behaviour (chunks of `result.textStream` as a function of the `streamText`
arguments): each chunk is forwarded unchanged. -/
def streamChatChunks (c : Cipher) (env : Env) (rows : List KeyRow)
    (providerChunks : StreamTextCall → List String) (request : ChatRequest) :
    Except LMResult (List String) :=
  match streamChatCall c env rows request with
  | .ok call => .ok (providerChunks call)
  | .error e => .error e

/-- Database role of a `ChatMessage` row (the route writes `'user'` and
`'assistant'`). -/
inductive Role
  | user
  | assistant
deriving DecidableEq, Repr

/-- A persisted `ChatMessage` row. -/
structure MsgRow where
  projectId : String
  role : Role
  content : String
  model : Option String
  createdAt : Nat
deriving DecidableEq, Repr

/-- The `Project` fields the chat route reads. -/
structure ProjectRow where
  id : String
  userId : String
deriving DecidableEq, Repr

/-- The `File` fields the chat route selects (`path`, `content`). -/
structure FileRow where
  projectId : String
  path : String
  content : String
deriving DecidableEq, Repr

/-- The relational store as the chat route sees it. -/
structure ChatDb where
  projects : List ProjectRow
  files : List FileRow
  messages : List MsgRow
deriving DecidableEq, Repr

/-- The parsed chat request body. -/
structure ChatReqBody where
  projectId : String
  message : String
  model : String
  temperature : Option ℚ := none
  maxTokens : Option ℚ := none
deriving DecidableEq, Repr

/-- `chatRequestSchema.safeParse`: `message` non-empty, `temperature` within
`[0, 2]` when present, `maxTokens` positive when present. -/
def validateChatRequest (body : ChatReqBody) : Bool :=
  body.message.length ≥ 1 &&
    (match body.temperature with
     | some t => decide (0 ≤ t ∧ t ≤ 2)
     | none => true) &&
    (match body.maxTokens with
     | some m => decide (0 < m)
     | none => true)

/-- `db.project.findUnique({ where: { id, userId } })`. -/
def findProject (db : ChatDb) (projectId userId : String) : Option ProjectRow :=
  db.projects.find? (fun p => p.id = projectId ∧ p.userId = userId)

/-- The project's files, as included by the query. -/
def projectFiles (db : ChatDb) (projectId : String) : List FileRow :=
  db.files.filter (fun f => f.projectId = projectId)

/-- The included `chatMessages` relation:
`orderBy: { createdAt: 'asc' }, take: 50` — ascending creation-time order,
then the FIRST fifty of that order (the oldest fifty). -/
def loadedMessages (db : ChatDb) (projectId : String) : List MsgRow :=
  (List.insertionSort (fun a b => a.createdAt ≤ b.createdAt)
    (db.messages.filter (fun m => m.projectId = projectId))).take 50

/-- `fileContext`: every file rendered verbatim into a fenced block, empty
contents shown as `(empty)` (JavaScript `file.content || '(empty)'`). -/
def fileContext (files : List FileRow) : String :=
  String.intercalate "\n\n"
    (files.map (fun file =>
      "File: " ++ file.path ++ "\n```\n" ++
        (if file.content = "" then "(empty)" else file.content) ++ "\n```"))

/-- The system prompt template of `app/api/chat/route.ts`, with the
project-context section present exactly when the project has files. -/
def systemPrompt (files : List FileRow) : String :=
  "You are an expert AI assistant helping with software development in an AI Studio environment.\n\n" ++
  (if files.length > 0 then
    "## Project Context\n\nThe user is working on a project with the following files:\n\n" ++
      fileContext files ++ "\n"
   else "") ++
  "\n\n## Your Capabilities\n- Provide clear, accurate, and helpful responses\n- Generate clean, well-commented code\n- Explain complex concepts in simple terms\n- Help with debugging and problem-solving\n- Follow best practices and modern patterns\n\n## Guidelines\n- Be concise but thorough\n- Use code examples when helpful\n- Cite file names when referencing project code\n- Ask clarifying questions when needed\n- Consider the full project context in your responses\n\nPlease provide helpful assistance for the user's request."

/-- Database roles embed into provider-message roles. -/
def roleToMsg : Role → MsgRole
  | .user => .user
  | .assistant => .assistant

/-- The `messages` array built by the route: system prompt, then the loaded
history, then the new user message. -/
def buildChatMessages (db : ChatDb) (projectId message : String) : List ProviderMsg :=
  { role := .system, content := systemPrompt (projectFiles db projectId) } ::
    (loadedMessages db projectId).map
      (fun msg => { role := roleToMsg msg.role, content := msg.content }) ++
    [{ role := .user, content := message }]

/-- How the provider stream ended, as seen by the `transformedStream` loop:
`natural` is `done = true` from the upstream reader; `aborted` is a
caller-initiated cancellation surfacing as an exception from
`reader.read()`/`controller.enqueue` (the client's `stopGeneration` aborts
the fetch); `errored` is an upstream failure raising in the loop.  The two
exceptional endings run the `catch` block. -/
inductive StreamEnd
  | natural
  | aborted
  | errored
deriving DecidableEq, Repr

/-- A provider-stream run: the chunks the loop read (and forwarded) before
the stream ended, and how it ended. -/
structure StreamScript where
  chunks : List String
  ending : StreamEnd
deriving DecidableEq, Repr

/-- Observable steps of one chat request, in execution order. -/
inductive ChatEvent
  | persistedUser (m : MsgRow)
  | invokedProvider (call : StreamTextCall)
  | emittedChunk (chunk : String)
  | persistedAssistant (m : MsgRow)
deriving DecidableEq, Repr

/-- Caller-facing outcome of the route. -/
inductive RouteStatus
  | unauthorized
  | badRequest
  | modelUnknown
  | projectNotFound
  | apiKeyRequired (provider : String) (requiredKey : String) (website : String)
  | serverError
  | streamed
deriving DecidableEq, Repr

/-- The `ChatRequest` value the route passes to `streamChat`: context
messages, `temperature ?? 0.7`, `maxTokens ?? modelConfig.maxOutput`, and the
session's user id. -/
def chatProviderRequest (db : ChatDb) (body : ChatReqBody) (modelConfig : AIModel)
    (uid : String) : ChatRequest :=
  { model := body.model
    messages := buildChatMessages db body.projectId body.message
    temperature := some (body.temperature.getD (7 / 10))
    maxTokens := some (body.maxTokens.getD (modelConfig.maxOutput : ℚ))
    userId := some uid }

/-- `POST` of `app/api/chat/route.ts`: session check, schema validation,
registry lookup, owner-scoped project load, then — in this order — persist
the user message, build the context messages, call `streamChat`, and run the
`transformedStream` loop against the provider stream `script`.  On `done`
the accumulated `fullResponse` is persisted as an assistant message when
non-empty (its own write failure is `.catch`-swallowed, which does not change
the persisted-on-success behaviour modelled here); the `catch` endings
persist nothing.  `now`/`later` are the two write timestamps. -/
def runChat (c : Cipher) (env : Env) (rows : List KeyRow) (db : ChatDb)
    (session : Option String) (body : ChatReqBody) (script : StreamScript)
    (now later : Nat) : ChatDb × List ChatEvent × RouteStatus :=
  match session with
  | none => (db, [], .unauthorized)
  | some uid =>
    if validateChatRequest body then
      match getModelById body.model with
      | none => (db, [], .modelUnknown)
      | some modelConfig =>
        match findProject db body.projectId uid with
        | none => (db, [], .projectNotFound)
        | some _project =>
          let userMsg : MsgRow := ⟨body.projectId, .user, body.message, some body.model, now⟩
          let db1 : ChatDb := { db with messages := db.messages ++ [userMsg] }
          match streamChatCall c env rows (chatProviderRequest db body modelConfig uid) with
          | .error e =>
            (db1, [.persistedUser userMsg],
              match e with
              | .apiKeyMissing p k w => .apiKeyRequired p k w
              | .modelNotFound _ => .modelUnknown
              | _ => .serverError)
          | .ok call =>
            let fullResponse := String.join script.chunks
            match script.ending with
            | .natural =>
              if fullResponse = "" then
                (db1,
                  .persistedUser userMsg :: .invokedProvider call ::
                    script.chunks.map .emittedChunk,
                  .streamed)
              else
                let assistantMsg : MsgRow :=
                  ⟨body.projectId, .assistant, fullResponse, some body.model, later⟩
                ({ db1 with messages := db1.messages ++ [assistantMsg] },
                  .persistedUser userMsg :: .invokedProvider call ::
                    (script.chunks.map .emittedChunk ++ [.persistedAssistant assistantMsg]),
                  .streamed)
            | .aborted =>
              (db1,
                .persistedUser userMsg :: .invokedProvider call ::
                  script.chunks.map .emittedChunk,
                .streamed)
            | .errored =>
              (db1,
                .persistedUser userMsg :: .invokedProvider call ::
                  script.chunks.map .emittedChunk,
                .streamed)
    else (db, [], .badRequest)

/-- The `UserApiKey` table with its id sequence. -/
structure KeysDb where
  rows : List KeyRow
  nextId : Nat
deriving DecidableEq, Repr

/-- The save path of `POST /api/settings/api-keys`
(`app/api/conversations/route.ts`), after schema validation (provider in the
five-member enum, non-empty key): encrypt with a fresh IV, then
`findFirst` on `(userId, provider)` and either `update` the found row by id
or `create` a new row. -/
def updRow (targetId : Nat) (enc : Str) (r : KeyRow) : KeyRow :=
  if r.id = targetId then { r with encryptedKey := enc } else r

def saveApiKey (c : Cipher) (d : KeysDb) (userId : String) (provider : AIProvider)
    (apiKey : Str) (ivHex : Str) : KeysDb :=
  let encryptedKey := encryptStored c ivHex apiKey
  match findFirstUserKey d.rows userId provider with
  | some existing => { d with rows := d.rows.map (updRow existing.id encryptedKey) }
  | none =>
    { rows := d.rows ++ [⟨d.nextId, userId, provider, encryptedKey⟩]
      nextId := d.nextId + 1 }

/-- The `(userId, provider)` key of a row. -/
def keyPair (r : KeyRow) : String × AIProvider := (r.userId, r.provider)

/-- The rows stored for one `(user, provider)` pair. -/
def rowsFor (d : KeysDb) (userId : String) (provider : AIProvider) : List KeyRow :=
  d.rows.filter (keyMatches userId provider)

/-- Well-formedness of the `UserApiKey` table: distinct ids below the id
sequence, and at most one row per `(user, provider)`. -/
structure KeysWf (d : KeysDb) : Prop where
  idsNodup : (d.rows.map KeyRow.id).Nodup
  idsBound : ∀ r ∈ d.rows, r.id < d.nextId
  pairsNodup : (d.rows.map keyPair).Nodup

/-- A file of the active project, as the auto-save closure sees it. -/
structure EditorFile where
  id : String
  path : String
deriving DecidableEq, Repr

/-- The values captured by one `saveFile` closure in the auto-save effect of
`EnhancedMainApp` (`components/sidebar/github-import.tsx`, identically
`MainApp`): the dependency array `[fileContent, selectedFile,
activeProject]`. -/
structure SaveClosure where
  selectedFile : Option String
  activeProjectFiles : Option (List EditorFile)
  fileContent : String
deriving DecidableEq, Repr

/-- What a `saveFile` closure PUTs when its timer fires: the id of the file
whose path matches `selectedFile` in the active project, with the captured
content; nothing when no file/project is selected or the path is absent. -/
def saveFilePut (cl : SaveClosure) : Option (String × String) :=
  match cl.selectedFile, cl.activeProjectFiles with
  | some path, some files =>
    match files.find? (fun f => f.path = path) with
    | some file => some (file.id, cl.fileContent)
    | none => none
  | _, _ => none

/-- Auto-save effect state: the pending debounce timer's closure (if any) and
the PUT requests issued so far. -/
structure AutoSaveState where
  pendingTimer : Option SaveClosure
  savedPuts : List (String × String)
deriving DecidableEq, Repr

/-- Events driving the effect: a dependency change (an edit, or a
file/project switch — React runs the cleanup, `clearTimeout`, then re-runs
the effect, scheduling a fresh 1-second timer over the new closure), or the
pending timer firing after the full quiet period. -/
inductive AutoSaveEvent
  | depsChange (cl : SaveClosure)
  | timerFire
deriving DecidableEq, Repr

/-- One step of the auto-save effect. -/
def autoSaveStep (s : AutoSaveState) : AutoSaveEvent → AutoSaveState
  | .depsChange cl => { s with pendingTimer := some cl }
  | .timerFire =>
    match s.pendingTimer with
    | some cl => { pendingTimer := none, savedPuts := s.savedPuts ++ (saveFilePut cl).toList }
    | none => s

/-- Run the effect over a sequence of events. -/
def autoSaveRun (s : AutoSaveState) (events : List AutoSaveEvent) : AutoSaveState :=
  events.foldl autoSaveStep s

/-- A 32-character hex IV (16 zero bytes), used for concrete evaluations. -/
def iv0 : Str := List.replicate 32 '0'

/-- A stored user key for OpenAI, encrypted under `digitCipher`. -/
def demoUserRow : KeyRow := ⟨1, "u1", .openai, encryptStored digitCipher iv0 "user-secret".toList⟩

/-- A corrupt stored credential: no `':'`, so the `iv:ciphertext` structure is
broken. -/
def corruptRow : KeyRow := ⟨1, "u1", .openai, "deadbeef".toList⟩

/-- An environment with only the OpenAI credential set. -/
def demoEnv : Env := ⟨some "env-openai".toList, none, none, none, none⟩

/-- An environment with no credentials at all. -/
def emptyEnv : Env := ⟨none, none, none, none, none⟩

/-- C10: `streamChat` builds its `streamText` call from the model handle,
converted messages, `temperature ?? 1.0`, `topP` and `tools` only — the
`maxTokens` field of the request is never read — so two requests that differ
only in `maxTokens` (either may be absent) produce the same `streamText`
argument record and, for any provider behaviour, the same emitted chunks. -/
theorem maxTokens_has_no_effect (c : Cipher) (env : Env) (rows : List KeyRow)
    (providerChunks : StreamTextCall → List String) (request : ChatRequest)
    (mt1 mt2 : Option ℚ) :
    streamChatCall c env rows { request with maxTokens := mt1 } =
        streamChatCall c env rows { request with maxTokens := mt2 } ∧
      streamChatChunks c env rows providerChunks { request with maxTokens := mt1 } =
        streamChatChunks c env rows providerChunks { request with maxTokens := mt2 } :=
  ⟨rfl, rfl⟩

/-- C5: when a user-specific key row exists for `(user, provider)` and its
stored value decrypts successfully, `getAPIKey` returns exactly the decrypted
user key — the result is the same whatever the environment holds, so the
environment-configured key is never returned in this case. -/
theorem getAPIKey_prefers_user_key (c : Cipher) (env : Env) (rows : List KeyRow)
    (provider : AIProvider) (uid : String) (userKey : KeyRow) (v : Str)
    (hfind : findFirstUserKey rows uid provider = some userKey)
    (hdec : decryptAKM c userKey.encryptedKey = .ok v) :
    getAPIKey c env rows provider (some uid) = some v := by
  simp [getAPIKey, hfind, hdec]

/-- Witness for C5 on concrete inputs: the stored row decrypts to
`"user-secret"` and the resolver returns it even though the environment holds
`"env-openai"`. -/
theorem getAPIKey_prefers_user_key_witness :
    findFirstUserKey [demoUserRow] "u1" AIProvider.openai = some demoUserRow ∧
      decryptAKM digitCipher demoUserRow.encryptedKey = .ok "user-secret".toList ∧
      getAPIKey digitCipher demoEnv [demoUserRow] .openai (some "u1") =
        some "user-secret".toList :=
  ⟨rfl, by rfl,
    getAPIKey_prefers_user_key digitCipher demoEnv [demoUserRow] .openai "u1" demoUserRow
      "user-secret".toList rfl (by rfl)⟩

/-- C3 counterexample: for a malformed stored value (`"deadbeef"`, no
`iv:ciphertext` delimiter) the inner `decrypt` does throw
(`Failed to decrypt API key`), but `getAPIKey` — the resolver the callers
see — swallows that failure and returns the environment-configured OpenAI
key, i.e. it uses another credential instead of signalling a hard failure
or treating the pair as having no usable key. -/
theorem decryption_error_counterexample :
    decryptAKM digitCipher corruptRow.encryptedKey = .error "Failed to decrypt API key" ∧
      getAPIKey digitCipher demoEnv [corruptRow] .openai (some "u1") =
        some "env-openai".toList :=
  ⟨rfl, rfl⟩

/-- C3 (amended): a malformed stored credential makes the inner `decrypt`
fail hard with `Failed to decrypt API key`, but `getAPIKey` catches the
failure and falls back to the provider's environment credential (or `null`
when none is set); the failure is never surfaced to `getAPIKey`'s callers. -/
theorem decryption_error_swallowed (c : Cipher) (env : Env) (rows : List KeyRow)
    (provider : AIProvider) (uid : String) (userKey : KeyRow) (e : String)
    (hfind : findFirstUserKey rows uid provider = some userKey)
    (hdec : decryptAKM c userKey.encryptedKey = .error e) :
    getAPIKey c env rows provider (some uid) = envKeyFor env provider := by
  simp [getAPIKey, hfind, hdec]

/-- Witness for the amended C3 on concrete inputs. -/
theorem decryption_error_swallowed_witness :
    findFirstUserKey [corruptRow] "u1" AIProvider.openai = some corruptRow ∧
      getAPIKey digitCipher demoEnv [corruptRow] .openai (some "u1") =
        envKeyFor demoEnv .openai :=
  ⟨rfl,
    decryption_error_swallowed digitCipher demoEnv [corruptRow] .openai "u1" corruptRow
      "Failed to decrypt API key" rfl rfl⟩

/-- C6: with no user-specific row for the model's provider and no environment
credential for it, `getAPIKey` returns `null` (not an error), and
`getLanguageModel` stops with `APIKeyMissingError` carrying the provider's
display name, required-setting name and website from `PROVIDER_INFO` — the
result is the error constructor, so no vendor client is constructed. -/
theorem credential_missing_fails_factory (c : Cipher) (env : Env) (rows : List KeyRow)
    (modelId : String) (modelConfig : AIModel) (uid : String)
    (hmodel : getModelById modelId = some modelConfig)
    (hnouser : findFirstUserKey rows uid modelConfig.provider = none)
    (hnoenv : envKeyFor env modelConfig.provider = none) :
    getAPIKey c env rows modelConfig.provider (some uid) = none ∧
      getLanguageModel c env rows modelId (some uid) =
        .apiKeyMissing (PROVIDER_INFO modelConfig.provider).name
          (PROVIDER_INFO modelConfig.provider).requiresKey
          (PROVIDER_INFO modelConfig.provider).website := by
  have hkey : getAPIKey c env rows modelConfig.provider (some uid) = none := by
    simp [getAPIKey, hnouser, hnoenv]
  exact ⟨hkey, by simp [getLanguageModel, hmodel, hkey]⟩

/-- Witness for C6 on concrete inputs: `gpt-4o` with no keys anywhere. -/
theorem credential_missing_fails_factory_witness :
    getAPIKey digitCipher emptyEnv [] AIProvider.openai (some "u1") = none ∧
      getLanguageModel digitCipher emptyEnv [] "gpt-4o" (some "u1") =
        .apiKeyMissing "OpenAI" "OPENAI_API_KEY" "https://platform.openai.com" :=
  credential_missing_fails_factory digitCipher emptyEnv [] "gpt-4o" gpt4o "u1" rfl rfl rfl

/-- C8: for every cipher satisfying the spec's symmetric-scheme laws, every
32-hex-character IV and every non-empty plaintext — including plaintexts
containing the `':'` delimiter — decrypting the stored `iv:ciphertext`
value recovers the plaintext exactly. -/
theorem encrypt_decrypt_roundtrip (c : Cipher) (ivHex text : Str)
    (hlen : ivHex.length = 32) (hhex : ivHex.all isHexChar = true) (_hne : text ≠ []) :
    decryptStored c (encryptStored c ivHex text) = some text :=
  decryptStored_encryptStored c ivHex text hlen hhex

/-- Witness for C8: a plaintext containing the `':'` delimiter twice. -/
theorem encrypt_decrypt_roundtrip_witness :
    iv0.length = 32 ∧ "sk:live:42".toList ≠ [] ∧
      decryptStored digitCipher (encryptStored digitCipher iv0 "sk:live:42".toList) =
        some "sk:live:42".toList :=
  ⟨by decide, by decide,
    encrypt_decrypt_roundtrip digitCipher iv0 "sk:live:42".toList (by decide) (by decide)
      (by decide)⟩

/-- C7 (amended): a dependency change before the pending debounce timer fires
runs the effect cleanup, whose `clearTimeout` cancels the pending `saveFile`
without executing it; after any sequence of dependency changes, only the
last closure's save runs when the timer finally fires.  The pending edit of
the previously selected file is dropped, not flushed. -/
theorem switch_drops_pending_save (s : AutoSaveState) (cls : List SaveClosure)
    (last : SaveClosure) :
    autoSaveRun s (cls.map .depsChange ++ [.depsChange last, .timerFire]) =
      ⟨none, s.savedPuts ++ (saveFilePut last).toList⟩ := by
  induction cls generalizing s with
  | nil => rfl
  | cons cl cls ih =>
    simpa [autoSaveRun, autoSaveStep] using ih ⟨some cl, s.savedPuts⟩

/-- C7 counterexample: the user edits `a.js` to content `"x"` (scheduling a
debounced save) and switches to `b.css` before the one-second quiet period
elapses; when the timer fires, only `b.css`'s closure is saved — the pending
`"x"` for `a.js` never reaches storage, contradicting the claim that the
switch still flushes it. -/
theorem switch_drops_pending_save_counterexample :
    (autoSaveRun ⟨none, []⟩
        [.depsChange ⟨some "a.js", some [⟨"f-a", "a.js"⟩, ⟨"f-b", "b.css"⟩], "x"⟩,
         .depsChange ⟨some "b.css", some [⟨"f-a", "a.js"⟩, ⟨"f-b", "b.css"⟩], "b-content"⟩,
         .timerFire]).savedPuts = [("f-b", "b-content")] ∧
      ("f-a", "x") ∉ (autoSaveRun ⟨none, []⟩
        [.depsChange ⟨some "a.js", some [⟨"f-a", "a.js"⟩, ⟨"f-b", "b.css"⟩], "x"⟩,
         .depsChange ⟨some "b.css", some [⟨"f-a", "a.js"⟩, ⟨"f-b", "b.css"⟩], "b-content"⟩,
         .timerFire]).savedPuts :=
  ⟨rfl, by decide⟩

/-- A project `p1` of user `u1` with 51 prior messages `m0, …, m50` created at
times `0, …, 50` — more than the 50-message context window. -/
def dbFiftyOne : ChatDb :=
  ⟨[⟨"p1", "u1"⟩], [],
    (List.range 51).map (fun i => ⟨"p1", .user, "m" ++ toString i, none, i⟩)⟩

/-- C2, failing input: with 51 prior messages, the context query
(`orderBy: { createdAt: 'asc' }, take: 50`) keeps the OLDEST fifty messages
`m0 … m49` (ascending) and drops the most recent prior message `m50`, so the
list passed to the provider is `[system, m0 … m49, new user message]` — the
cap of 50 and the ascending order hold, but the claimed (and code-commented,
`last 50 messages`) choice of the most recent messages does not. -/
theorem context_takes_oldest_fifty :
    (loadedMessages dbFiftyOne "p1").map (fun m => m.content) =
        (List.range 50).map (fun i => "m" ++ toString i) ∧
      (buildChatMessages dbFiftyOne "p1" "hi").length = 52 ∧
      ((buildChatMessages dbFiftyOne "p1" "hi").map (fun m => m.content)).contains "m50" =
        false ∧
      ((buildChatMessages dbFiftyOne "p1" "hi").map (fun m => m.content)).contains "m0" =
        true ∧
      (buildChatMessages dbFiftyOne "p1" "hi").head?.map (fun m => m.role) =
        some MsgRole.system ∧
      (buildChatMessages dbFiftyOne "p1" "hi").getLast?.map (fun m => m.content) =
        some "hi" := by
  refine ⟨by decide, by decide, by decide, by decide, by decide, by decide⟩

/-- C1: for every request that reaches the Streaming state (session present,
body valid, model known, project owned, provider call resolved), the run
emits `persistedUser` strictly before `invokedProvider`, then the forwarded
chunks; an assistant row is appended only on natural stream completion (and
then after the user row), so the history gains the user message always and an
assistant message only behind it — never an assistant message without its
preceding user message, possibly a user message with no reply. -/
theorem user_persisted_before_generation
    (c : Cipher) (env : Env) (rows : List KeyRow) (db : ChatDb)
    (uid : String) (body : ChatReqBody) (script : StreamScript) (now later : Nat)
    (modelConfig : AIModel) (project : ProjectRow) (call : StreamTextCall)
    (hval : validateChatRequest body = true)
    (hmodel : getModelById body.model = some modelConfig)
    (hproj : findProject db body.projectId uid = some project)
    (hcall : streamChatCall c env rows (chatProviderRequest db body modelConfig uid) =
      .ok call) :
    (runChat c env rows db (some uid) body script now later).2.1 =
        .persistedUser ⟨body.projectId, .user, body.message, some body.model, now⟩ ::
          .invokedProvider call ::
          (script.chunks.map .emittedChunk ++
            (if script.ending = .natural ∧ String.join script.chunks ≠ "" then
              [.persistedAssistant
                ⟨body.projectId, .assistant, String.join script.chunks, some body.model, later⟩]
             else [])) ∧
      (runChat c env rows db (some uid) body script now later).1.messages =
        db.messages ++ ⟨body.projectId, .user, body.message, some body.model, now⟩ ::
          (if script.ending = .natural ∧ String.join script.chunks ≠ "" then
            [⟨body.projectId, .assistant, String.join script.chunks, some body.model, later⟩]
           else []) ∧
      (∀ m : MsgRow,
        ChatEvent.persistedAssistant m ∈
            (runChat c env rows db (some uid) body script now later).2.1 →
          script.ending = .natural) := by
  obtain ⟨chunks, ending⟩ := script
  simp only [runChat, hval, hmodel, hproj, hcall, if_true]
  cases ending with
  | natural =>
    by_cases hempty : String.join chunks = ""
    · simp [hempty]
    · simp [hempty]
  | aborted =>
    refine ⟨by simp, by simp, ?_⟩
    intro m hm
    simp only [List.mem_cons, List.mem_append, List.mem_map] at hm
    rcases hm with h | h | h
    · exact absurd h (by simp)
    · exact absurd h (by simp)
    · obtain ⟨x, _, hx⟩ := h
      exact absurd hx (by simp)
  | errored =>
    refine ⟨by simp, by simp, ?_⟩
    intro m hm
    simp only [List.mem_cons, List.mem_append, List.mem_map] at hm
    rcases hm with h | h | h
    · exact absurd h (by simp)
    · exact absurd h (by simp)
    · obtain ⟨x, _, hx⟩ := h
      exact absurd hx (by simp)

/-- C4: when the caller aborts the generation during streaming — however many
chunks were already accumulated and forwarded — the run persists no assistant
row: the assistant rows of the store are unchanged, and no
`persistedAssistant` event occurs. -/
theorem abort_persists_no_assistant
    (c : Cipher) (env : Env) (rows : List KeyRow) (db : ChatDb)
    (uid : String) (body : ChatReqBody) (script : StreamScript) (now later : Nat)
    (modelConfig : AIModel) (project : ProjectRow) (call : StreamTextCall)
    (hval : validateChatRequest body = true)
    (hmodel : getModelById body.model = some modelConfig)
    (hproj : findProject db body.projectId uid = some project)
    (hcall : streamChatCall c env rows (chatProviderRequest db body modelConfig uid) =
      .ok call)
    (habort : script.ending = .aborted) :
    (runChat c env rows db (some uid) body script now later).1.messages.filter
        (fun m => m.role = Role.assistant) =
      db.messages.filter (fun m => m.role = Role.assistant) ∧
      ∀ m : MsgRow,
        ChatEvent.persistedAssistant m ∉
          (runChat c env rows db (some uid) body script now later).2.1 := by
  obtain ⟨chunks, ending⟩ := script
  subst habort
  simp only [runChat, hval, hmodel, hproj, hcall, if_true]
  refine ⟨by simp [List.filter_append], ?_⟩
  intro m hm
  simp only [List.mem_cons, List.mem_map] at hm
  rcases hm with h | h | h
  · exact absurd h (by simp)
  · exact absurd h (by simp)
  · obtain ⟨x, _, hx⟩ := h
    exact absurd hx (by simp)

/-- A one-project store for concrete runs of the relay. -/
def dbOne : ChatDb := ⟨[⟨"p1", "u1"⟩], [], []⟩

/-- A concrete valid chat request body. -/
def bodyOne : ChatReqBody := ⟨"p1", "hello", "gpt-4o", none, none⟩

/-- The `streamText` call the relay makes for `bodyOne` against `dbOne` with
only the environment OpenAI key configured. -/
def callOne : StreamTextCall :=
  { model := .openaiCustom "env-openai".toList "gpt-4o"
    messages := convertMessages (buildChatMessages dbOne "p1" "hello")
    temperature := 7 / 10
    topP := none
    tools := none }

/-- Witness for C1 on concrete inputs: a natural two-chunk stream appends the
user row and then the assistant row. -/
theorem user_persisted_before_generation_witness :
    validateChatRequest bodyOne = true ∧
      (runChat digitCipher demoEnv [] dbOne (some "u1") bodyOne
          ⟨["Hi ", "there"], .natural⟩ 0 1).1.messages =
        dbOne.messages ++ ⟨"p1", .user, "hello", some "gpt-4o", 0⟩ ::
          (if StreamEnd.natural = StreamEnd.natural ∧
              String.join ["Hi ", "there"] ≠ "" then
            [⟨"p1", .assistant, String.join ["Hi ", "there"], some "gpt-4o", 1⟩]
           else []) :=
  ⟨by decide,
    (user_persisted_before_generation digitCipher demoEnv [] dbOne "u1" bodyOne
      ⟨["Hi ", "there"], .natural⟩ 0 1 gpt4o ⟨"p1", "u1"⟩ callOne (by decide) rfl rfl
      rfl).2.1⟩

/-- Witness for C4 on concrete inputs: an aborted stream with a forwarded
chunk leaves the assistant rows unchanged. -/
theorem abort_persists_no_assistant_witness :
    StreamScript.ending ⟨["Hi "], .aborted⟩ = .aborted ∧
      (runChat digitCipher demoEnv [] dbOne (some "u1") bodyOne
          ⟨["Hi "], .aborted⟩ 0 1).1.messages.filter
          (fun m => m.role = Role.assistant) =
        dbOne.messages.filter (fun m => m.role = Role.assistant) :=
  ⟨rfl,
    (abort_persists_no_assistant digitCipher demoEnv [] dbOne "u1" bodyOne
      ⟨["Hi "], .aborted⟩ 0 1 gpt4o ⟨"p1", "u1"⟩ callOne (by decide) rfl rfl rfl rfl).1⟩

theorem updRow_id (t : Nat) (e : Str) (r : KeyRow) : (updRow t e r).id = r.id := by
  unfold updRow; split <;> rfl

theorem updRow_keyMatches (u : String) (p : AIProvider) (t : Nat) (e : Str) (r : KeyRow) :
    keyMatches u p (updRow t e r) = keyMatches u p r := by
  unfold updRow; split <;> rfl

theorem updRow_keyPair (t : Nat) (e : Str) (r : KeyRow) :
    keyPair (updRow t e r) = keyPair r := by
  unfold updRow; split <;> rfl

theorem keyMatches_eq_true_iff (u : String) (p : AIProvider) (r : KeyRow) :
    keyMatches u p r = true ↔ r.userId = u ∧ r.provider = p := by
  simp [keyMatches]

theorem keyPair_of_matches (u : String) (p : AIProvider) (r : KeyRow)
    (h : keyMatches u p r = true) : keyPair r = (u, p) := by
  obtain ⟨h1, h2⟩ := (keyMatches_eq_true_iff u p r).mp h
  simp [keyPair, h1, h2]

theorem filter_map_comm {α : Type} (q : α → Bool) (f : α → α)
    (hq : ∀ x, q (f x) = q x) (l : List α) :
    (l.map f).filter q = (l.filter q).map f := by
  induction l with
  | nil => rfl
  | cons a l ih =>
    by_cases h : q a = true
    · simp [List.filter_cons, hq a, h, ih]
    · simp [List.filter_cons, hq a, h, ih]

theorem map_map_updRow_id (t : Nat) (e : Str) (l : List KeyRow) :
    (l.map (updRow t e)).map KeyRow.id = l.map KeyRow.id := by
  induction l with
  | nil => rfl
  | cons r l ih => simp [updRow_id, ih]

theorem map_map_updRow_pair (t : Nat) (e : Str) (l : List KeyRow) :
    (l.map (updRow t e)).map keyPair = l.map keyPair := by
  induction l with
  | nil => rfl
  | cons r l ih => simp [updRow_keyPair, ih]

/-- With at most one row per `(user, provider)`, filtering by the pair keeps
exactly the matching row. -/
theorem filter_matches_unique (u : String) (p : AIProvider) :
    ∀ (l : List KeyRow) (ex : KeyRow), (l.map keyPair).Nodup → ex ∈ l →
      keyMatches u p ex = true → l.filter (keyMatches u p) = [ex] := by
  intro l
  induction l with
  | nil => intro ex _ h; cases h
  | cons r l ih =>
    intro ex hnd hmem hex
    simp only [List.map_cons, List.nodup_cons] at hnd
    obtain ⟨hnotin, hnd'⟩ := hnd
    have hpair_ex : keyPair ex = (u, p) := keyPair_of_matches u p ex hex
    rcases List.mem_cons.mp hmem with h | h
    · subst h
      have htail : l.filter (keyMatches u p) = [] := by
        rw [List.filter_eq_nil_iff]
        intro a ha hqa
        exact hnotin (hpair_ex ▸ (keyPair_of_matches u p a hqa) ▸
          List.mem_map_of_mem keyPair ha)
      simp [List.filter_cons, hex, htail]
    · have hr : ¬ keyMatches u p r = true := by
        intro hr
        exact hnotin ((keyPair_of_matches u p r hr).symm ▸ hpair_ex ▸
          List.mem_map_of_mem keyPair h)
      simp only [List.filter_cons, hr, if_false]
      exact ih ex hnd' h hex

/-- One `saveApiKey` on a well-formed table keeps it well-formed and leaves
exactly one row for `(user, provider)`, holding the fresh encryption. -/
theorem saveApiKey_upsert_step (c : Cipher) (d : KeysDb) (u : String) (p : AIProvider)
    (apiKey iv : Str) (hwf : KeysWf d) :
    KeysWf (saveApiKey c d u p apiKey iv) ∧
      ∃ i, rowsFor (saveApiKey c d u p apiKey iv) u p =
        [⟨i, u, p, encryptStored c iv apiKey⟩] := by
  cases hfind : findFirstUserKey d.rows u p with
  | none =>
    have hnomatch : ∀ r ∈ d.rows, ¬ keyMatches u p r = true := by
      intro r hr
      exact List.find?_eq_none.mp hfind r hr
    have hsave : saveApiKey c d u p apiKey iv =
        ⟨d.rows ++ [⟨d.nextId, u, p, encryptStored c iv apiKey⟩], d.nextId + 1⟩ := by
      simp [saveApiKey, hfind]
    rw [hsave]
    refine ⟨⟨?_, ?_, ?_⟩, d.nextId, ?_⟩
    · simp only [List.map_append, List.map_cons, List.map_nil]
      rw [List.nodup_append]
      refine ⟨hwf.idsNodup, by simp, ?_⟩
      intro x hx hx'
      simp only [List.mem_singleton] at hx'
      subst hx'
      obtain ⟨r, hr, hrx⟩ := List.mem_map.mp hx
      exact absurd (hwf.idsBound r hr) (by omega)
    · intro r hr
      rcases List.mem_append.mp hr with h | h
      · exact Nat.lt_succ_of_lt (hwf.idsBound r h)
      · simp only [List.mem_singleton] at h
        subst h
        exact Nat.lt_succ_self _
    · simp only [List.map_append, List.map_cons, List.map_nil]
      rw [List.nodup_append]
      refine ⟨hwf.pairsNodup, by simp, ?_⟩
      intro x hx hx'
      simp only [List.mem_singleton] at hx'
      subst hx'
      obtain ⟨r, hr, hrx⟩ := List.mem_map.mp hx
      refine hnomatch r hr ?_
      rw [keyMatches_eq_true_iff]
      have h1 : r.userId = u := congrArg Prod.fst hrx
      have h2 : r.provider = p := congrArg Prod.snd hrx
      exact ⟨h1, h2⟩
    · unfold rowsFor
      simp only [List.filter_append]
      have h1 : d.rows.filter (keyMatches u p) = [] := by
        rw [List.filter_eq_nil_iff]
        exact hnomatch
      have h2 : keyMatches u p ⟨d.nextId, u, p, encryptStored c iv apiKey⟩ = true := by
        rw [keyMatches_eq_true_iff]
        exact ⟨rfl, rfl⟩
      simp [h1, List.filter_cons, h2]
  | some ex =>
    have hex_mem : ex ∈ d.rows := List.mem_of_find?_eq_some hfind
    have hex_match : keyMatches u p ex = true := List.find?_some hfind
    have hsave : saveApiKey c d u p apiKey iv =
        ⟨d.rows.map (updRow ex.id (encryptStored c iv apiKey)), d.nextId⟩ := by
      simp [saveApiKey, hfind]
    rw [hsave]
    refine ⟨⟨?_, ?_, ?_⟩, ex.id, ?_⟩
    · rw [map_map_updRow_id]
      exact hwf.idsNodup
    · intro r hr
      obtain ⟨r0, hr0, hrr⟩ := List.mem_map.mp hr
      subst hrr
      rw [updRow_id]
      exact hwf.idsBound r0 hr0
    · rw [map_map_updRow_pair]
      exact hwf.pairsNodup
    · unfold rowsFor
      rw [filter_map_comm (keyMatches u p) (updRow ex.id (encryptStored c iv apiKey))
            (updRow_keyMatches u p ex.id (encryptStored c iv apiKey)) d.rows,
          filter_matches_unique u p d.rows ex hwf.pairsNodup hex_mem hex_match]
      have h1 : updRow ex.id (encryptStored c iv apiKey) ex =
          { ex with encryptedKey := encryptStored c iv apiKey } := by
        unfold updRow
        simp
      obtain ⟨h2, h3⟩ := (keyMatches_eq_true_iff u p ex).mp hex_match
      simp only [List.map_cons, List.map_nil, h1]
      exact congrArg (fun z => [z]) (by cases ex; simp_all)

/-- C9: saving a key for `(user, provider)` on a well-formed `UserApiKey`
table preserves "at most one row per `(user, provider)`" (plus id
uniqueness); in particular, saving the same plaintext twice leaves exactly
one row for the pair, and that row decrypts back to the plaintext. -/
theorem api_key_upsert_idempotent (c : Cipher) (d : KeysDb) (u : String) (p : AIProvider)
    (apiKey iv1 iv2 : Str) (hwf : KeysWf d)
    (hlen : iv2.length = 32) (hhex : iv2.all isHexChar = true) :
    KeysWf (saveApiKey c d u p apiKey iv1) ∧
      KeysWf (saveApiKey c (saveApiKey c d u p apiKey iv1) u p apiKey iv2) ∧
      (rowsFor (saveApiKey c (saveApiKey c d u p apiKey iv1) u p apiKey iv2) u p).length
        = 1 ∧
      ∀ r ∈ rowsFor (saveApiKey c (saveApiKey c d u p apiKey iv1) u p apiKey iv2) u p,
        decryptStored c r.encryptedKey = some apiKey := by
  obtain ⟨hwf1, _⟩ := saveApiKey_upsert_step c d u p apiKey iv1 hwf
  obtain ⟨hwf2, i, hrows⟩ :=
    saveApiKey_upsert_step c (saveApiKey c d u p apiKey iv1) u p apiKey iv2 hwf1
  refine ⟨hwf1, hwf2, by rw [hrows]; rfl, ?_⟩
  intro r hr
  rw [hrows] at hr
  rcases List.mem_singleton.mp hr with rfl
  exact decryptStored_encryptStored c iv2 apiKey hlen hhex

/-- Witness for C9 on concrete inputs: saving `sk-test` twice for
`(u1, openai)` into an empty table leaves exactly one row. -/
theorem api_key_upsert_idempotent_witness :
    iv0.length = 32 ∧
      (rowsFor (saveApiKey digitCipher
          (saveApiKey digitCipher ⟨[], 0⟩ "u1" .openai "sk-test".toList iv0)
          "u1" .openai "sk-test".toList iv0) "u1" .openai).length = 1 :=
  ⟨by decide,
    (api_key_upsert_idempotent digitCipher ⟨[], 0⟩ "u1" .openai "sk-test".toList iv0 iv0
      (by constructor <;> simp) (by decide) (by decide)).2.2.1⟩
